import Mathlib

/-!
Shallow embedding of `src/bin/index.js` of git-cycle-time: a CLI that computes
the mean elapsed time between a commit's timestamp and the tagged release that
first contains it.  External collaborators (the `git` shell commands) and the
host's `Date.parse` are modelled as oracles bundled in an `Env`; each external
query issued is recorded in an `ExtCall` trace so that claims about the order
of validation versus external calls can be stated.
-/

/-- A JavaScript number as it occurs in this program: a rational value, or NaN
(modelled as `none`).  Every arithmetic value flowing through the pipeline
(millisecond timestamps produced by `Date.parse`, durations, means) has this
form; JS infinities never arise here (no division by zero is reachable). -/
abbrev JsNum := Option ℚ

/-- JavaScript `NaN`. -/
def jsNan : JsNum := none

/-- An ordinary (non-NaN) JavaScript number. -/
def jsNum (q : ℚ) : JsNum := some q

/-- JavaScript `<` on numbers: false whenever either operand is NaN. -/
def jsLt : JsNum → JsNum → Bool
  | some a, some b => decide (a < b)
  | _, _ => false

/-- JavaScript `>` on numbers: false whenever either operand is NaN. -/
def jsGt : JsNum → JsNum → Bool
  | some a, some b => decide (b < a)
  | _, _ => false

/-- JavaScript `>=` on numbers: false whenever either operand is NaN. -/
def jsGe : JsNum → JsNum → Bool
  | some a, some b => decide (b ≤ a)
  | _, _ => false

/-- Truthiness of a JavaScript number: `NaN` and `0` are falsy, every other
number is truthy. -/
def jsTruthy : JsNum → Bool
  | some a => decide (a ≠ 0)
  | none => false

/-- Truthiness of a possibly-undefined JavaScript string: `undefined` (`none`)
and the empty string are falsy. -/
def jsStrTruthy : Option String → Bool
  | none => false
  | some s => !s.isEmpty

/-- JavaScript `+` on numbers: NaN absorbs. -/
def jsAdd : JsNum → JsNum → JsNum
  | some a, some b => some (a + b)
  | _, _ => none

/-- JavaScript binary `-` on numbers: NaN absorbs. -/
def jsSub : JsNum → JsNum → JsNum
  | some a, some b => some (a - b)
  | _, _ => none

/-- JavaScript `Math.abs`: `Math.abs(NaN)` is NaN. -/
def jsAbs : JsNum → JsNum
  | some a => some (abs a)
  | none => none

/-- JavaScript division of a number by a natural-number literal, as used by
`sum / data.length` and `/ 1000 / 60 / 60`: NaN propagates.  Every divisor in
the program is positive (`data.length` is only used in the non-empty branch of
`mean`), so the JS `x / 0 = Infinity` case is never reached. -/
def jsDivN (x : JsNum) (n : ℕ) : JsNum :=
  x.map (fun a => a / (n : ℚ))

/-- Model of the JavaScript string method `split(sep)` for a one-character
separator, at the character-list level: `"".split(sep)` is `[""]`, adjacent
separators produce empty fields, and the full string is the concatenation of
the fields interleaved with the separator. -/
def jsSplitChars (sep : Char) : List Char → List (List Char)
  | [] => [[]]
  | c :: cs =>
    let r := jsSplitChars sep cs
    if c = sep then [] :: r
    else (c :: r.headD []) :: r.tail

/-- JavaScript `s.split(sep)` for a one-character separator string. -/
def jsSplit (sep : Char) (s : String) : List String :=
  (jsSplitChars sep s.toList).map (fun cs => String.mk cs)

/-- JavaScript `s.substring(n)`: the characters of `s` from index `n` on. -/
def jsSubstring (s : String) (n : ℕ) : String :=
  String.mk (s.toList.drop n)

/-- JavaScript `s.startsWith(p)`. -/
def jsStartsWith (p s : String) : Bool :=
  p.toList.isPrefixOf s.toList

/-- One parsed tag line: `{ tag, date }` as built by `parseTagLine`. -/
structure TagRec where
  tag : String
  date : JsNum
deriving DecidableEq

/-- The external world of one invocation, at a fixed repository path:
`dateParse` is the host's `Date.parse` (NaN-producing); `tags refOption` is the
stdout of the `git for-each-ref` listing for the chosen ref-date field;
`cherry upstream head` is the stdout of `git cherry upstream head`;
`commitLog sha` is the stdout of `git log -n 1 --format=format:%cI sha`
(the argument is `none` when the JS code passes `undefined`). -/
structure Env where
  dateParse : String → JsNum
  tags : String → String
  cherry : String → String → String
  commitLog : Option String → String

/-- One external-collaborator query, recorded in issue order. -/
inductive ExtCall where
  | listTags (refOption : String)
  | diffCommits (upstream head : String)
  | commitTimestamp (sha : Option String)
deriving DecidableEq

/-- `parseTagLine` from the source: the empty line yields `null`; any other
line yields `{ tag: line.split(" ")[0], date: Date.parse(line.substring(tag.length)) }`. -/
def parseTagLine (dateParse : String → JsNum) (tagLine : String) : Option TagRec :=
  if tagLine.length = 0 then
    none
  else
    let tag := (jsSplit (Char.ofNat 32) tagLine).headD ""
    let date := dateParse (jsSubstring tagLine tag.length)
    some { tag := tag, date := date }

/-- The first loop of `calculateCycleTime` (the release selector): split the
tag listing into lines, parse each line, skip non-records, skip records dated
strictly after `endDate` (JS `>`), and keep records whose tag fits the
pattern, in input order.  `matchesTag` models the truthiness of
`tag.match(regexp)`. -/
def selectReleases (dateParse : String → JsNum) (matchesTag : String → Bool)
    (tagsData : String) (endDate : JsNum) : List TagRec :=
  (jsSplit (Char.ofNat 10) tagsData).filterMap (fun tagLine =>
    match parseTagLine dateParse tagLine with
    | none => none
    | some tagByDate =>
      if jsGt tagByDate.date endDate then none
      else if matchesTag tagByDate.tag then some tagByDate else none)

/-- The source's `zip`: indices `0 .. max(b.length, a.length) - 1`, each
position holding `[a[i], b[i]]` where an out-of-range index gives
`undefined` (`none`). -/
def zip {α β : Type} (a : List α) (b : List β) : List (Option α × Option β) :=
  (List.range (max b.length a.length)).map (fun i => (a[i]?, b[i]?))

/-- `getCommitTime` from the source: run `git log -n 1 --format=format:%cI sha`
and `Date.parse` its stdout; the issued query is recorded. -/
def getCommitTime (env : Env) (sha : Option String) : JsNum × List ExtCall :=
  (env.dateParse (env.commitLog sha), [ExtCall.commitTimestamp sha])

/-- `getDurationsForRelease` from the source: fetch the `git cherry` diff for
the pair, keep the lines starting with `"+"`, look up each kept line's second
space-delimited token (`split(" ")[1]`, `none` when absent, mirroring JS
`undefined`) as a commit and fetch its time.  This is the body of the loop of
`getDurationsForRelease`, named so the loop can be characterised. -/
def cherryStep (env : Env) (acc : List JsNum × List ExtCall) (cherryCommit : String) :
    List JsNum × List ExtCall :=
  if jsStartsWith "+" cherryCommit then
    let commit := (jsSplit (Char.ofNat 32) cherryCommit)[1]?
    let t := getCommitTime env commit
    (acc.1 ++ [t.1], acc.2 ++ t.2)
  else acc

/-- `getDurationsForRelease` from the source (continued): fold `cherryStep`
over the lines of the `git cherry` output, then map the collected commit times
to `Math.abs(releaseDate - time)`. -/
def getDurationsForRelease (env : Env) (upstream head : String) (releaseDate : JsNum) :
    List JsNum × List ExtCall :=
  let commitsDiff := env.cherry upstream head
  let step := (jsSplit (Char.ofNat 10) commitsDiff).foldl (cherryStep env) ([], [])
  (step.1.map (fun date => jsAbs (jsSub releaseDate date)),
   ExtCall.diffCommits upstream head :: step.2)

/-- `mean` from the source: the empty collection gives NaN; otherwise
`data.reduce((a, b) => a + b) / data.length` (JS `reduce` without an initial
value folds from the first element). -/
def mean (data : List JsNum) : JsNum :=
  match data with
  | [] => jsNan
  | a :: rest => jsDivN (rest.foldl jsAdd a) (rest.length + 1)

/-- The body of the second loop of `calculateCycleTime`, acting on an
accumulator of (collected durations, release count, external-call trace).
A pair is skipped when `!currentRelease || currentRelease.date < startDate`;
otherwise its durations are extracted and appended and the count increments.
The `getD` default for `oldRelease` is unreachable: the first component of
every pair produced by `zip releaseCommits upper` is present, because the left
list is the longer one (the JS code dereferences `oldRelease.tag`
unconditionally). -/
def calcStep (env : Env) (startDate : JsNum)
    (acc : List JsNum × ℕ × List ExtCall) (release : Option TagRec × Option TagRec) :
    List JsNum × ℕ × List ExtCall :=
  match release.2 with
  | none => acc
  | some currentRelease =>
    if jsLt currentRelease.date startDate then acc
    else
      let oldRelease := release.1.getD { tag := "", date := jsNan }
      let t := getDurationsForRelease env oldRelease.tag currentRelease.tag currentRelease.date
      (acc.1 ++ t.1, acc.2.1 + 1, acc.2.2 ++ t.2)

/-- The admission test applied by the pair loop (the window filter), extracted
from the skip condition of `calcStep`: a pair is processed exactly when its
second component is present and `currentRelease.date < startDate` is false
under JS comparison. -/
def admitPair (startDate : JsNum) (p : Option TagRec × Option TagRec) : Bool :=
  match p.2 with
  | none => false
  | some currentRelease => !(jsLt currentRelease.date startDate)

/-- The admission rule in the words of the specification: the pair's later
element is present and `later.timestamp ≥ startDate` (JS `>=`, false on NaN).
Stated from the spec, to be compared with `admitPair`. -/
def specAdmit (startDate : JsNum) (p : Option TagRec × Option TagRec) : Bool :=
  match p.2 with
  | none => false
  | some currentRelease => jsGe currentRelease.date startDate

/-- The result record of `calculateCycleTime`. -/
structure CycleResult where
  cycleTime : JsNum
  numberOfReleases : ℕ
deriving DecidableEq

/-- `calculateCycleTime` from the source: select the releases, pair each with
its successor via `zip(releaseCommits, releaseCommits.slice(1))`, run the pair
loop, and return the grand mean converted `/ 1000 / 60 / 60` to hours together
with the survivor count; the second component is the trace of external
queries. -/
def calculateCycleTime (env : Env) (tagsData : String) (startDate endDate : JsNum)
    (matchesTag : String → Bool) : CycleResult × List ExtCall :=
  let releaseCommits := selectReleases env.dateParse matchesTag tagsData endDate
  let upper := releaseCommits.drop 1
  let zippedReleases := zip releaseCommits upper
  let step := zippedReleases.foldl (calcStep env startDate) ([], 0, [])
  ({ cycleTime := jsDivN (jsDivN (jsDivN (mean step.1) 1000) 60) 60,
     numberOfReleases := step.2.1 },
   step.2.2)

/-- Outcome of one `execute` invocation: a thrown (string) error or a normal
return carrying the `CycleResult`. -/
inductive ExecOutcome where
  | ok (result : CycleResult)
  | error (msg : String)
deriving DecidableEq

/-- `execute` from the source, with the final console formatting omitted:
check the path, `Date.parse` both date strings, reject a falsy start date,
run the tag listing (the first external query), reject a falsy end-date
string (`!endDateString`: here the empty string, since the CLI layer always
passes a string), then run `calculateCycleTime`.  The second component is the
trace of external queries in issue order. -/
def execute (env : Env) (startDateString endDateString : String)
    (matchesTag : String → Bool) (isLightweight : Bool) (path : Option String) :
    ExecOutcome × List ExtCall :=
  if !(jsStrTruthy path) then
    (ExecOutcome.error "No path to the Git repository provided", [])
  else
    let startDate := env.dateParse startDateString
    let endDate := env.dateParse endDateString
    if !(jsTruthy startDate) then
      (ExecOutcome.error "Couldn\x27t parse start-date argument", [])
    else
      let refOption := if isLightweight then "creatordate" else "taggerdate"
      let releaseTags := env.tags refOption
      if endDateString == "" then
        (ExecOutcome.error "Couldn\x27t parse end-date argument", [ExtCall.listTags refOption])
      else
        let r := calculateCycleTime env releaseTags startDate endDate matchesTag
        (ExecOutcome.ok r.1, ExtCall.listTags refOption :: r.2)

/-! ### Helper lemmas -/

lemma jsAdd_comm (a b : JsNum) : jsAdd a b = jsAdd b a := by
  cases a <;> cases b <;> simp [jsAdd] <;> ring

lemma jsAdd_zero_left (a : JsNum) : jsAdd (jsNum 0) a = a := by
  cases a <;> simp [jsAdd, jsNum]

lemma jsAdd_right_comm (b a₁ a₂ : JsNum) :
    jsAdd (jsAdd b a₁) a₂ = jsAdd (jsAdd b a₂) a₁ := by
  cases b <;> cases a₁ <;> cases a₂ <;> simp [jsAdd] <;> ring

instance : RightCommutative jsAdd := ⟨jsAdd_right_comm⟩

/-- The fold of the non-empty branch of `mean` can be started from `0`. -/
lemma foldl_jsAdd_from_zero (a : JsNum) (l : List JsNum) :
    l.foldl jsAdd a = (a :: l).foldl jsAdd (jsNum 0) := by
  simp [List.foldl_cons, jsAdd_zero_left]

lemma mean_nonempty (a : JsNum) (l : List JsNum) :
    mean (a :: l) = jsDivN ((a :: l).foldl jsAdd (jsNum 0)) (a :: l).length := by
  rw [List.foldl_cons, jsAdd_zero_left, List.length_cons]
  rfl


/-- C3: `mean([])` is not-a-number, `mean([x]) = x` for every single-element
list, and `mean` returns the same value on every permutation of its input. -/
theorem mean_properties :
    mean [] = jsNan ∧ (∀ x : JsNum, mean [x] = x) ∧
      ∀ (l l' : List JsNum), l.Perm l' → mean l = mean l' := by
  refine ⟨rfl, ?_, ?_⟩
  · intro x
    cases x <;> simp [mean, jsDivN, jsNan]
  · intro l l' h
    cases l with
    | nil => rw [← h.nil_eq]
    | cons a t =>
      cases l' with
      | nil => exact absurd (List.perm_nil.mp h) (by simp)
      | cons b t' =>
        rw [mean_nonempty, mean_nonempty, h.foldl_eq (jsNum 0), h.length_eq]

/-- Witness for C3 at concrete inputs. -/
theorem mean_properties_witness :
    mean [] = jsNan ∧ mean [jsNum 5] = jsNum 5 ∧
      mean [jsNum 1, jsNum 2] = mean [jsNum 2, jsNum 1] := by
  refine ⟨mean_properties.1, mean_properties.2.1 (jsNum 5), ?_⟩
  exact mean_properties.2.2 _ _ (List.Perm.swap (jsNum 2) (jsNum 1) [])

/-- The selector loop is the pattern-and-endDate filter of the parsed lines. -/
lemma selectReleases_eq_filter (dp : String → JsNum) (m : String → Bool)
    (td : String) (e : JsNum) :
    selectReleases dp m td e =
      ((jsSplit (Char.ofNat 10) td).filterMap (parseTagLine dp)).filter
        (fun t => !jsGt t.date e && m t.tag) := by
  unfold selectReleases
  induction jsSplit (Char.ofNat 10) td with
  | nil => rfl
  | cons line lines ih =>
    simp only [List.filterMap_cons]
    cases h : parseTagLine dp line with
    | none => simpa using ih
    | some t =>
      by_cases hgt : jsGt t.date e = true
      · simp [hgt, ih]
      · by_cases hm : m t.tag = true
        · simp [hgt, hm, ih]
        · simp [hgt, hm, ih, Bool.not_eq_true]

/-- C6: the release selector never emits a record dated strictly after
`endDate` (for numeric dates, the emitted date is at most `endDate`), never
emits a record whose tag fails the pattern, and its output is a sublist of the
parsed input lines, hence in input order. -/
theorem selectReleases_invariants (dp : String → JsNum) (m : String → Bool)
    (td : String) (e : JsNum) :
    (∀ r ∈ selectReleases dp m td e,
        jsGt r.date e = false ∧ m r.tag = true ∧
          ∀ d ev : ℚ, r.date = jsNum d → e = jsNum ev → d ≤ ev) ∧
    List.Sublist (selectReleases dp m td e)
      ((jsSplit (Char.ofNat 10) td).filterMap (parseTagLine dp)) := by
  rw [selectReleases_eq_filter]
  refine ⟨?_, List.filter_sublist _⟩
  intro r hr
  have hp := List.of_mem_filter hr
  simp only [Bool.and_eq_true, Bool.not_eq_true'] at hp
  refine ⟨hp.1, hp.2, ?_⟩
  intro d ev hd he
  have h1 := hp.1
  rw [hd, he] at h1
  simpa [jsGt, jsNum, not_lt] using h1

/-- Witness for C6 at a concrete input: the selected record `(a, 50)` is not
after the end date `1000`, matched the pattern, and `50 ≤ 1000`. -/
theorem selectReleases_invariants_witness :
    jsGt (jsNum 50) (jsNum 1000) = false ∧ (50 : ℚ) ≤ 1000 := by
  have h := (selectReleases_invariants (fun s => if s = " x" then jsNum 50 else jsNan)
      (fun _ => true) "a x" (jsNum 1000)).1 { tag := "a", date := jsNum 50 } (by decide)
  exact ⟨h.1, h.2.2 50 1000 rfl rfl⟩

/-- C7: applied to the selected list and its tail, the source's `zip` emits
exactly `N` pairs; pair `i` holds element `i` (always present) and element
`i + 1`; the final pair's second component is absent, and the window filter's
admission test always rejects a pair with an absent later release. -/
theorem releasePairer_spec (a : List TagRec) :
    (zip a (a.drop 1)).length = a.length ∧
    (∀ i, i < a.length →
        (zip a (a.drop 1))[i]? = some (a[i]?, a[i + 1]?) ∧ (a[i]?).isSome) ∧
    (a ≠ [] → (zip a (a.drop 1))[a.length - 1]? = some (a[a.length - 1]?, none)) ∧
    (∀ (s : JsNum) (x : Option TagRec), admitPair s (x, none) = false) := by
  have hmax : max (a.drop 1).length a.length = a.length := by
    rw [List.length_drop]; omega
  have hlen : (zip a (a.drop 1)).length = a.length := by
    simp [zip, hmax]
  have hget : ∀ i, i < a.length → (zip a (a.drop 1))[i]? = some (a[i]?, a[i + 1]?) := by
    intro i hi
    have : (List.range (max (a.drop 1).length a.length))[i]? = some i := by
      rw [hmax]; exact List.getElem?_range hi
    simp only [zip, List.getElem?_map, this, Option.map_some']
    rw [List.getElem?_drop, Nat.add_comm 1 i]
  refine ⟨hlen, fun i hi => ⟨hget i hi, by simp [List.getElem?_eq_getElem hi]⟩, ?_, ?_⟩
  · intro hne
    have hpos : 0 < a.length := List.length_pos.mpr hne
    have h1 : a.length - 1 < a.length := by omega
    rw [hget _ h1]
    have : a.length - 1 + 1 = a.length := by omega
    rw [this, List.getElem?_eq_none (le_refl _)]
  · intro s x
    rfl

/-- Concrete two-element selected list used by the pairer witness. -/
def pairW : List TagRec := [{ tag := "a", date := jsNum 1 }, { tag := "b", date := jsNum 2 }]

/-- Witness for C7 at a concrete two-element list. -/
theorem releasePairer_spec_witness :
    (zip pairW (pairW.drop 1)).length = pairW.length ∧
    (zip pairW (pairW.drop 1))[0]? = some (pairW[0]?, pairW[0 + 1]?) ∧
    (zip pairW (pairW.drop 1))[pairW.length - 1]? = some (pairW[pairW.length - 1]?, none) ∧
    admitPair (jsNum 0) (some { tag := "b", date := jsNum 2 }, none) = false := by
  have h := releasePairer_spec pairW
  exact ⟨h.1, (h.2.1 0 (by decide)).1, h.2.2.1 (by decide), h.2.2.2 (jsNum 0) _⟩

/-- The durations and external-call trace contributed by one pair when it is
processed by the pair loop (`([], [])` for a pair the loop skips). -/
def pairData (env : Env) (p : Option TagRec × Option TagRec) :
    List JsNum × List ExtCall :=
  match p.2 with
  | none => ([], [])
  | some currentRelease =>
    let oldRelease := p.1.getD { tag := "", date := jsNan }
    getDurationsForRelease env oldRelease.tag currentRelease.tag currentRelease.date

/-- Unrolling the pair loop: the durations collected, the release count and
the trace are exactly the concatenated contributions of the pairs accepted by
`admitPair`. -/
lemma foldl_calcStep (env : Env) (s : JsNum) (l : List (Option TagRec × Option TagRec))
    (acc : List JsNum × ℕ × List ExtCall) :
    l.foldl (calcStep env s) acc =
      (acc.1 ++ (l.filter (admitPair s)).flatMap (fun p => (pairData env p).1),
       acc.2.1 + (l.filter (admitPair s)).length,
       acc.2.2 ++ (l.filter (admitPair s)).flatMap (fun p => (pairData env p).2)) := by
  induction l generalizing acc with
  | nil => simp
  | cons p l ih =>
    rw [List.foldl_cons, ih]
    rcases p with ⟨o, c⟩
    cases c with
    | none => simp [calcStep, admitPair]
    | some cur =>
      by_cases hlt : jsLt cur.date s = true
      · simp [calcStep, admitPair, hlt]
      · simp only [Bool.not_eq_true] at hlt
        simp [calcStep, admitPair, pairData, hlt, List.append_assoc, Nat.add_assoc,
          Nat.add_comm 1]

/-- Closed form of `calculateCycleTime`: select, pair, filter by `admitPair`,
concatenate the admitted pairs' durations and traces, average and convert. -/
lemma calculateCycleTime_eq (env : Env) (td : String) (s e : JsNum)
    (m : String → Bool) :
    calculateCycleTime env td s e m =
      (let rc := selectReleases env.dateParse m td e
       let admitted := (zip rc (rc.drop 1)).filter (admitPair s)
       ({ cycleTime :=
            jsDivN (jsDivN (jsDivN (mean (admitted.flatMap (fun p => (pairData env p).1))) 1000) 60) 60,
          numberOfReleases := admitted.length },
        admitted.flatMap (fun p => (pairData env p).2))) := by
  unfold calculateCycleTime
  dsimp only
  rw [foldl_calcStep]
  simp

/-- Concrete environment whose second tag line has an unparseable date: only
the remainder `" x"` parses (to `50`); every other date string is NaN. -/
def envA : Env :=
  { dateParse := fun str => if str = " x" then jsNum 50 else jsNan,
    tags := fun _ => "a x\nb y",
    cherry := fun _ _ => "",
    commitLog := fun _ => "" }

/-- C1 (amended): the pair loop counts (and extracts durations for) exactly
the pairs accepted by `admitPair`, i.e. those whose later element is present
and whose later timestamp is NOT `< startDate` under JS comparison; for a
numeric later timestamp and numeric start date this coincides with the claimed
rule `later.timestamp ≥ startDate`, but a NaN later timestamp is admitted. -/
theorem windowFilter_admission_amended (env : Env) (td : String) (s e : JsNum)
    (m : String → Bool) :
    ((calculateCycleTime env td s e m).1.numberOfReleases =
      ((zip (selectReleases env.dateParse m td e)
          ((selectReleases env.dateParse m td e).drop 1)).filter (admitPair s)).length) ∧
    ((calculateCycleTime env td s e m).2 =
      ((zip (selectReleases env.dateParse m td e)
          ((selectReleases env.dateParse m td e).drop 1)).filter (admitPair s)).flatMap
        (fun p => (pairData env p).2)) ∧
    (∀ (p : Option TagRec × Option TagRec) (cur : TagRec),
        p.2 = some cur → (admitPair s p = true ↔ jsLt cur.date s = false)) ∧
    (∀ (p : Option TagRec × Option TagRec) (cur : TagRec) (d sv : ℚ),
        p.2 = some cur → cur.date = jsNum d → s = jsNum sv →
        admitPair s p = specAdmit s p) := by
  refine ⟨by rw [calculateCycleTime_eq], by rw [calculateCycleTime_eq], ?_, ?_⟩
  · rintro ⟨o, c⟩ cur h2
    cases h2
    simp [admitPair]
  · rintro ⟨o, c⟩ ⟨ct, cd⟩ d sv h2 hd hs
    cases h2
    cases hd
    cases hs
    simp only [admitPair, specAdmit, jsLt, jsGe, jsNum]
    rw [← decide_not]
    simp [not_le]

/-- Counterexample to C1 as stated: in `envA` the second selected tag has a
NaN timestamp, so its pair fails `later.timestamp ≥ startDate`, yet the code
admits it — `releaseCount` is `1` while the claimed rule admits `0` pairs. -/
theorem windowFilter_nan_admitted_cex :
    (calculateCycleTime envA "a x\nb y" (jsNum 0) (jsNum 1000)
        (fun _ => true)).1.numberOfReleases = 1 ∧
    ((zip (selectReleases envA.dateParse (fun _ => true) "a x\nb y" (jsNum 1000))
        ((selectReleases envA.dateParse (fun _ => true) "a x\nb y" (jsNum 1000)).drop 1)).filter
      (specAdmit (jsNum 0))).length = 0 := by
  decide

/-- Witness for C1 (amended) at a concrete admitted pair with numeric dates. -/
theorem windowFilter_admission_amended_witness :
    (admitPair (jsNum 0)
        (some { tag := "a", date := jsNum 50 }, some { tag := "b", date := jsNum 60 }) = true ↔
      jsLt (jsNum 60) (jsNum 0) = false) ∧
    admitPair (jsNum 0)
        (some { tag := "a", date := jsNum 50 }, some { tag := "b", date := jsNum 60 }) =
      specAdmit (jsNum 0)
        (some { tag := "a", date := jsNum 50 }, some { tag := "b", date := jsNum 60 }) := by
  have h := windowFilter_admission_amended envA "a x\nb y" (jsNum 0) (jsNum 1000) (fun _ => true)
  exact ⟨h.2.2.1 _ _ rfl, h.2.2.2 _ _ 60 0 rfl rfl rfl⟩

/-- C8: whenever zero pairs survive the window filter, the pipeline returns
the well-defined result `releaseCount = 0` and a NaN cycle time. -/
theorem zero_survivors_nan (env : Env) (td : String) (s e : JsNum) (m : String → Bool)
    (h : ((zip (selectReleases env.dateParse m td e)
            ((selectReleases env.dateParse m td e).drop 1)).filter (admitPair s)) = []) :
    (calculateCycleTime env td s e m).1 =
      { cycleTime := jsNan, numberOfReleases := 0 } := by
  rw [calculateCycleTime_eq]
  dsimp only
  rw [h]
  rfl

/-- Witness for C8: an empty tag listing admits zero pairs and yields
`{ cycleTime := NaN, releaseCount := 0 }`. -/
theorem zero_survivors_nan_witness :
    ((zip (selectReleases envA.dateParse (fun _ => false) "" (jsNum 10))
        ((selectReleases envA.dateParse (fun _ => false) "" (jsNum 10)).drop 1)).filter
      (admitPair (jsNum 0))) = [] ∧
    (calculateCycleTime envA "" (jsNum 0) (jsNum 10) (fun _ => false)).1 =
      { cycleTime := jsNan, numberOfReleases := 0 } := by
  exact ⟨by decide, zero_survivors_nan envA "" (jsNum 0) (jsNum 10) (fun _ => false) (by decide)⟩

/-- Unrolling the cherry loop: the collected commit times and trace come from
exactly the `+`-prefixed lines, in listing order. -/
lemma foldl_cherryStep (env : Env) (lines : List String) (acc : List JsNum × List ExtCall) :
    lines.foldl (cherryStep env) acc =
      (acc.1 ++ (lines.filter (fun l => jsStartsWith "+" l)).map
          (fun l => env.dateParse (env.commitLog ((jsSplit (Char.ofNat 32) l)[1]?))),
       acc.2 ++ (lines.filter (fun l => jsStartsWith "+" l)).map
          (fun l => ExtCall.commitTimestamp ((jsSplit (Char.ofNat 32) l)[1]?))) := by
  induction lines generalizing acc with
  | nil => simp
  | cons l ls ih =>
    rw [List.foldl_cons, ih]
    by_cases h : jsStartsWith "+" l = true
    · simp [cherryStep, h, getCommitTime]
    · simp [cherryStep, h]

/-- C2: the duration extractor keeps exactly the `+`-prefixed diff lines,
takes each kept line's second space-delimited token as the commit identifier,
queries that commit's timestamp, and produces `|releaseDate − commitTime|` for
the kept commits in the order the collaborator listed them (both in the
duration list and in the query trace). -/
theorem getDurationsForRelease_spec (env : Env) (upstream head : String) (d : JsNum) :
    (getDurationsForRelease env upstream head d).1 =
      ((jsSplit (Char.ofNat 10) (env.cherry upstream head)).filter
          (fun l => jsStartsWith "+" l)).map
        (fun l => jsAbs (jsSub d
          (env.dateParse (env.commitLog ((jsSplit (Char.ofNat 32) l)[1]?))))) ∧
    (getDurationsForRelease env upstream head d).2 =
      ExtCall.diffCommits upstream head ::
        ((jsSplit (Char.ofNat 10) (env.cherry upstream head)).filter
            (fun l => jsStartsWith "+" l)).map
          (fun l => ExtCall.commitTimestamp ((jsSplit (Char.ofNat 32) l)[1]?)) := by
  unfold getDurationsForRelease
  dsimp only
  rw [foldl_cherryStep]
  simp [List.map_map]

/-- C9 (amended): every duration the extractor produces is either NaN (when
the release date or the commit's parsed timestamp is NaN) or a non-negative
number; it is never a negative number. -/
theorem durations_nonneg_amended (env : Env) (upstream head : String) (d : JsNum) :
    ∀ x ∈ (getDurationsForRelease env upstream head d).1,
      x = jsNan ∨ ∃ q : ℚ, x = jsNum q ∧ 0 ≤ q := by
  intro x hx
  unfold getDurationsForRelease at hx
  dsimp only at hx
  rcases List.mem_map.mp hx with ⟨t, _, rfl⟩
  cases d with
  | none => left; rfl
  | some dv =>
    cases t with
    | none => left; rfl
    | some tv => right; exact ⟨|dv - tv|, rfl, abs_nonneg _⟩

/-- Concrete environment whose single new commit has an unparseable timestamp
(`Date.parse` of the `git log` output is NaN). -/
def envB : Env :=
  { dateParse := fun _ => jsNan,
    tags := fun _ => "",
    cherry := fun _ _ => "+ c1",
    commitLog := fun _ => "" }

/-- Counterexample to C9 as stated: with an unparseable commit timestamp the
produced duration is NaN — not a well-defined number. -/
theorem durations_nan_cex :
    (getDurationsForRelease envB "u" "h" (jsNum 100)).1 = [jsNan] ∧
    ((getDurationsForRelease envB "u" "h" (jsNum 100)).1.all Option.isSome) = false := by
  decide

/-- Concrete environment whose single new commit parses to time `40`. -/
def envC : Env :=
  { dateParse := fun str => if str = "T" then jsNum 40 else jsNan,
    tags := fun _ => "",
    cherry := fun _ _ => "+ c1",
    commitLog := fun _ => "T" }

/-- Witness for C9 (amended) at a concrete produced duration. -/
theorem durations_nonneg_amended_witness :
    jsAbs (jsSub (jsNum 100) (jsNum 40)) = jsNan ∨
      ∃ q : ℚ, jsAbs (jsSub (jsNum 100) (jsNum 40)) = jsNum q ∧ 0 ≤ q :=
  durations_nonneg_amended envC "u" "h" (jsNum 100) _ (List.Mem.head _)

/-- A JS split never produces an empty list of fields. -/
lemma jsSplitChars_ne_nil (sep : Char) (cs : List Char) : jsSplitChars sep cs ≠ [] := by
  cases cs with
  | nil => simp [jsSplitChars]
  | cons c cs => by_cases h : c = sep <;> simp [jsSplitChars, h]

/-- The first field of a JS split is the longest separator-free leading
segment of the input. -/
lemma jsSplitChars_headD (sep : Char) (cs : List Char) :
    (jsSplitChars sep cs).headD [] = cs.takeWhile (fun c => !(c == sep)) := by
  induction cs with
  | nil => rfl
  | cons c cs ih =>
    by_cases h : c = sep
    · simp [jsSplitChars, h, List.takeWhile_cons]
    · simp only [jsSplitChars, h, if_false, List.takeWhile_cons]
      simp only [List.headD_eq_head?_getD] at ih
      simp [h, ih]

/-- String form of `jsSplitChars_headD`: `split(sep)[0]` is the substring of
`s` before the first occurrence of `sep`. -/
lemma jsSplit_headD (sep : Char) (s : String) :
    (jsSplit sep s).headD "" = String.mk (s.toList.takeWhile (fun c => !(c == sep))) := by
  unfold jsSplit
  cases h : jsSplitChars sep s.toList with
  | nil => exact absurd h (jsSplitChars_ne_nil sep s.toList)
  | cons a t =>
    have hh := jsSplitChars_headD sep s.toList
    rw [h] at hh
    simp only [List.headD_cons] at hh
    simp [hh]

/-- C5 (amended): the parser yields no record exactly for the empty line;
every non-empty line — malformed or blank included — yields a record whose
name is the substring of the line before the first space (its longest
space-free leading segment) and whose timestamp is the date-parse of the
remainder of the line after the name (possibly NaN), not an absent record. -/
theorem parseTagLine_amended (dp : String → JsNum) (line : String) :
    (parseTagLine dp line = none ↔ line = "") ∧
    (∀ r, parseTagLine dp line = some r →
        r.tag = String.mk (line.toList.takeWhile (fun c => !(c == Char.ofNat 32))) ∧
        r.date = dp (String.mk (line.toList.drop r.tag.length))) := by
  have hlen : line.length = 0 ↔ line = "" := by
    cases line with
    | mk d => simp [String.length, String.ext_iff]
  constructor
  · by_cases h : line.length = 0
    · simp [parseTagLine, h, hlen.mp h]
    · have hne : ¬ line = "" := fun e => h (hlen.mpr e)
      simp [parseTagLine, h, hne]
  · intro r hr
    unfold parseTagLine at hr
    by_cases h : line.length = 0
    · simp [h] at hr
    · simp only [h, if_false] at hr
      cases hr
      exact ⟨jsSplit_headD (Char.ofNat 32) line, rfl⟩

/-- Counterexample to C5 as stated: the malformed, blank line `" "` yields a
record (with empty tag and NaN timestamp) rather than no record. -/
theorem parseTagLine_blank_line_cex :
    parseTagLine (fun _ => jsNan) " " = some { tag := "", date := jsNan } ∧
      parseTagLine (fun _ => jsNan) " " ≠ none := by
  decide

/-- Witness for C5 (amended) at the empty line and at a well-formed line. -/
theorem parseTagLine_amended_witness :
    parseTagLine (fun _ => jsNum 7) "" = none ∧
    ({ tag := "v1", date := jsNum 7 } : TagRec).tag =
      String.mk ("v1 d".toList.takeWhile (fun c => !(c == Char.ofNat 32))) := by
  refine ⟨(parseTagLine_amended (fun _ => jsNum 7) "").1.mpr rfl, ?_⟩
  exact ((parseTagLine_amended (fun _ => jsNum 7) "v1 d").2
    { tag := "v1", date := jsNum 7 } (by decide)).1

/-- C4 (amended): the missing-path and unparseable-start-date input errors
abort the invocation before any external query (empty trace); the end-date
check, however, fires only after the tag listing has been requested — its
abort trace holds exactly the one `listTags` query — and a missing regexp is
never detected by the core: once the path and start date are accepted and the
end-date string is non-empty, the invocation returns a normal result. -/
theorem execute_input_error_order_amended (env : Env) (sds eds : String)
    (m : String → Bool) (lw : Bool) (path : Option String) :
    (jsStrTruthy path = false →
      execute env sds eds m lw path =
        (ExecOutcome.error "No path to the Git repository provided", [])) ∧
    (jsStrTruthy path = true → jsTruthy (env.dateParse sds) = false →
      execute env sds eds m lw path =
        (ExecOutcome.error "Couldn\x27t parse start-date argument", [])) ∧
    (jsStrTruthy path = true → jsTruthy (env.dateParse sds) = true → eds = "" →
      execute env sds eds m lw path =
        (ExecOutcome.error "Couldn\x27t parse end-date argument",
         [ExtCall.listTags (if lw then "creatordate" else "taggerdate")])) ∧
    (jsStrTruthy path = true → jsTruthy (env.dateParse sds) = true → eds ≠ "" →
      execute env sds eds m lw path =
        (ExecOutcome.ok
            (calculateCycleTime env
              (env.tags (if lw then "creatordate" else "taggerdate"))
              (env.dateParse sds) (env.dateParse eds) m).1,
         ExtCall.listTags (if lw then "creatordate" else "taggerdate") ::
           (calculateCycleTime env
             (env.tags (if lw then "creatordate" else "taggerdate"))
             (env.dateParse sds) (env.dateParse eds) m).2)) := by
  refine ⟨fun h1 => ?_, fun h1 h2 => ?_, fun h1 h2 h3 => ?_, fun h1 h2 h3 => ?_⟩
  · simp [execute, h1]
  · simp [execute, h1, h2]
  · subst h3; simp [execute, h1, h2]
  · simp [execute, h1, h2, h3]

/-- Concrete environment for the validation-order counterexample: the start
date string `"S"` parses (to `5`) and the tag listing is available. -/
def envD : Env :=
  { dateParse := fun str => if str = "S" then jsNum 5 else jsNan,
    tags := fun _ => "a x",
    cherry := fun _ _ => "",
    commitLog := fun _ => "" }

/-- Counterexample to C4 as stated: the end-date input error aborts the
invocation only after the tag-listing query was already issued — the trace at
the abort is non-empty, refuting "no external query is issued". -/
theorem execute_end_date_after_listTags_cex :
    execute envD "S" "" (fun _ => true) false (some "repo") =
      (ExecOutcome.error "Couldn\x27t parse end-date argument",
       [ExtCall.listTags "taggerdate"]) ∧
    (execute envD "S" "" (fun _ => true) false (some "repo")).2 ≠ [] := by
  decide

/-- Witness for C4 (amended) at concrete invocations exercising all four
branches. -/
theorem execute_input_error_order_amended_witness :
    execute envD "S" "x" (fun _ => true) false none =
      (ExecOutcome.error "No path to the Git repository provided", []) ∧
    execute envD "bad" "x" (fun _ => true) false (some "repo") =
      (ExecOutcome.error "Couldn\x27t parse start-date argument", []) ∧
    execute envD "S" "" (fun _ => true) false (some "repo") =
      (ExecOutcome.error "Couldn\x27t parse end-date argument",
       [ExtCall.listTags "taggerdate"]) ∧
    execute envD "S" "x" (fun _ => true) false (some "repo") =
      (ExecOutcome.ok
          (calculateCycleTime envD (envD.tags "taggerdate")
            (envD.dateParse "S") (envD.dateParse "x") (fun _ => true)).1,
       ExtCall.listTags "taggerdate" ::
         (calculateCycleTime envD (envD.tags "taggerdate")
           (envD.dateParse "S") (envD.dateParse "x") (fun _ => true)).2) := by
  refine ⟨(execute_input_error_order_amended envD "S" "x" (fun _ => true) false none).1 rfl,
    (execute_input_error_order_amended envD "bad" "x" (fun _ => true) false
      (some "repo")).2.1 rfl (by decide),
    (execute_input_error_order_amended envD "S" "" (fun _ => true) false
      (some "repo")).2.2.1 rfl (by decide) rfl,
    (execute_input_error_order_amended envD "S" "x" (fun _ => true) false
      (some "repo")).2.2.2 rfl (by decide) (by decide)⟩

/-- C10: with a truthy path, `execute` aborts with the start-date parse error
exactly when `Date.parse` of the start-date string is not a truthy number,
i.e. when it is NaN or the number `0`; consequently the valid epoch instant
string `"1970-01-01T00:00:00Z"`, whose parse is `0`, is rejected with that
parse error. -/
theorem execute_start_date_falsy (env : Env) (sds eds : String) (m : String → Bool)
    (lw : Bool) (path : Option String) (hp : jsStrTruthy path = true) :
    ((execute env sds eds m lw path).1 =
        ExecOutcome.error "Couldn\x27t parse start-date argument" ↔
      jsTruthy (env.dateParse sds) = false) ∧
    (env.dateParse "1970-01-01T00:00:00Z" = jsNum 0 →
      (execute env "1970-01-01T00:00:00Z" eds m lw path).1 =
        ExecOutcome.error "Couldn\x27t parse start-date argument") := by
  constructor
  · constructor
    · intro h
      by_contra hne
      rw [Bool.not_eq_false] at hne
      by_cases he : eds = ""
      · subst he; simp [execute, hp, hne] at h
      · simp [execute, hp, hne, he] at h
    · intro h
      simp [execute, hp, h]
  · intro h0
    simp [execute, hp, h0, jsTruthy, jsNum]

/-- Concrete environment whose `Date.parse` sends every string to `0`, the
epoch timestamp. -/
def envE : Env :=
  { dateParse := fun _ => jsNum 0,
    tags := fun _ => "",
    cherry := fun _ _ => "",
    commitLog := fun _ => "" }

/-- Witness for C10 at a concrete invocation with the epoch start date. -/
theorem execute_start_date_falsy_witness :
    ((execute envE "1970-01-01T00:00:00Z" "x" (fun _ => true) false (some "repo")).1 =
        ExecOutcome.error "Couldn\x27t parse start-date argument" ↔
      jsTruthy (envE.dateParse "1970-01-01T00:00:00Z") = false) ∧
    (execute envE "1970-01-01T00:00:00Z" "x" (fun _ => true) false (some "repo")).1 =
      ExecOutcome.error "Couldn\x27t parse start-date argument" := by
  have h := execute_start_date_falsy envE "1970-01-01T00:00:00Z" "x" (fun _ => true)
    false (some "repo") (by decide)
  exact ⟨h.1, h.2 rfl⟩
